import Mathlib

/-!
Verification of `dfu_v10.py` (Enhanced Demo Analysis Tool).

The development shallowly embeds the Python source: Python strings are
`List Char`, `json.loads` / `json.dumps(·, indent=2)` are modelled by an
executable parser/serializer over an inductive `Json` type, `st.error`
side effects become explicit message lists, the Streamlit session state
becomes an explicit record, and the external generation service is a
parameter (a stubbed response), as the spec's design notes prescribe.
-/

set_option maxRecDepth 20000

abbrev Str := List Char

/-- Coerce a Lean string literal to the `List Char` representation. -/
def txt (s : String) : Str := s.toList

namespace Py

/-- Python `sub.startswith`-style prefix test on character lists
(`needle.isPrefixOf hay`). -/
def pyPrefix : Str → Str → Bool
  | [], _ => true
  | _ :: _, [] => false
  | a :: as, b :: bs => a == b && pyPrefix as bs

/-- Python `sub in text` substring membership. -/
def pyContains (sub : Str) : Str → Bool
  | [] => sub.isEmpty
  | c :: rest => pyPrefix sub (c :: rest) || pyContains sub rest

/-- Fueled worker for Python `text.split(sep)` (non-empty `sep`):
split at each leftmost non-overlapping occurrence of `sep`. -/
def pysplitF (sep : Str) : Nat → Str → List Str
  | _, [] => [[]]
  | 0, s => [s]
  | fuel + 1, c :: rest =>
    if pyPrefix sep (c :: rest) && !sep.isEmpty then
      [] :: pysplitF sep fuel (rest.drop (sep.length - 1))
    else
      List.modifyHead (fun t => c :: t) (pysplitF sep fuel rest)

/-- Python `text.split(sep)` for a non-empty separator. -/
def pysplit (sep s : Str) : List Str := pysplitF sep s.length s

/-- Python `text.replace(sub, repl)` for a non-empty `sub`
(equal to `repl.join(text.split(sub))`). -/
def pyreplace (s sub repl : Str) : Str :=
  List.intercalate repl (pysplit sub s)

/-- Characters removed by Python `str.strip()` with no arguments. -/
def isPySpace (c : Char) : Bool :=
  c == ' ' || c == '\t' || c == '\n' || c == '\r' || c == '\x0b' || c == '\x0c'

/-- Python `text.strip()`: remove leading and trailing whitespace. -/
def pystrip (s : Str) : Str :=
  ((s.dropWhile isPySpace).reverse.dropWhile isPySpace).reverse

/-- Python `text.title()`: a character is uppercased when the previous
character is not alphanumeric, lowercased otherwise. -/
def pyTitleGo : Bool → Str → Str
  | _, [] => []
  | prevAlpha, c :: rest =>
    (if c.isAlpha || c.isDigit then
        (if prevAlpha then c.toLower else c.toUpper)
      else c) :: pyTitleGo (c.isAlpha || c.isDigit) rest

/-- Python `text.title()`. -/
def pyTitle (s : Str) : Str := pyTitleGo false s

end Py

/-! ## JSON values and Python's `json.loads` / `json.dumps(·, indent=2)` -/

/-- JSON values as produced by `json.loads`. Numbers keep their source
lexeme (the claims under verification never depend on numeric value, and
this avoids floating point). Object entries keep Python dict insertion
order. -/
inductive Json where
  | null : Json
  | bool (b : Bool) : Json
  | num (lexeme : Str) : Json
  | str (s : Str) : Json
  | arr (elems : List Json) : Json
  | obj (entries : List (Str × Json)) : Json

namespace Json

/-- Inter-token whitespace accepted by `json.loads`. -/
def isJsonWs (c : Char) : Bool :=
  c == ' ' || c == '\t' || c == '\n' || c == '\r'

/-- Skip JSON whitespace. -/
def skipWs (s : Str) : Str := s.dropWhile isJsonWs

/-- Value of a hexadecimal digit. -/
def hexVal : Char → Option Nat := fun c =>
  if '0' ≤ c && c ≤ '9' then some (c.toNat - 48)
  else if 'a' ≤ c && c ≤ 'f' then some (c.toNat - 87)
  else if 'A' ≤ c && c ≤ 'F' then some (c.toNat - 70)
  else none

/-- First pass over a JSON string body (after the opening quote):
decode escapes into UTF-16-style code units, stopping at the closing
quote. Strict `json.loads` semantics: raw control characters and unknown
escapes are rejected. -/
def parseJStrU : Str → Option (List Nat × Str)
  | [] => none
  | '"' :: r => some ([], r)
  | '\\' :: 'u' :: h1 :: h2 :: h3 :: h4 :: r => do
    let n1 ← hexVal h1
    let n2 ← hexVal h2
    let n3 ← hexVal h3
    let n4 ← hexVal h4
    let n := ((n1 * 16 + n2) * 16 + n3) * 16 + n4
    (parseJStrU r).map (fun p => (n :: p.1, p.2))
  | '\\' :: e :: r =>
    (match e with
     | '"' => some '"'
     | '\\' => some '\\'
     | '/' => some '/'
     | 'b' => some '\x08'
     | 'f' => some '\x0c'
     | 'n' => some '\n'
     | 'r' => some '\r'
     | 't' => some '\t'
     | _ => none).bind
      (fun c : Char =>
        (parseJStrU r).map (fun p : List Nat × Str => (c.toNat :: p.1, p.2)))
  | c :: r =>
    if c.toNat < 0x20 then none
    else (parseJStrU r).map (fun p => (c.toNat :: p.1, p.2))

/-- Second pass: combine adjacent surrogate code-unit pairs produced by
`\uXXXX` escapes, as CPython's scanner does. (Model deviation: a lone
surrogate, which a Python `str` can hold but a Lean `Char` cannot,
becomes U+FFFD. Raw characters are never surrogates, so only
escape-produced units can combine, exactly as in CPython.) -/
def combineSurrogates : List Nat → Str
  | [] => []
  | [a] =>
    if 0xD800 ≤ a ∧ a ≤ 0xDFFF then ['�'] else [Char.ofNat a]
  | a :: b :: rest =>
    if 0xD800 ≤ a ∧ a ≤ 0xDBFF then
      if 0xDC00 ≤ b ∧ b ≤ 0xDFFF then
        Char.ofNat (0x10000 + (a - 0xD800) * 0x400 + (b - 0xDC00))
          :: combineSurrogates rest
      else '�' :: combineSurrogates (b :: rest)
    else if 0xDC00 ≤ a ∧ a ≤ 0xDFFF then '�' :: combineSurrogates (b :: rest)
    else Char.ofNat a :: combineSurrogates (b :: rest)

/-- Parse the body of a JSON string after the opening quote; returns the
decoded content and the input following the closing quote. -/
def parseJStr (s : Str) : Option (Str × Str) :=
  (parseJStrU s).map (fun p => (combineSurrogates p.1, p.2))

/-- Integer part of a JSON number: `0` or a nonzero digit followed by
digits (no leading zeros). -/
def parseIntPart : Str → Option (Str × Str)
  | [] => none
  | c :: r =>
    if c = '0' then some (['0'], r)
    else if c.isDigit then
      some (c :: r.takeWhile Char.isDigit, r.dropWhile Char.isDigit)
    else none

/-- Optional fractional part `.digits` of a JSON number. -/
def parseFrac : Str → Option (Str × Str)
  | '.' :: r =>
    if (r.takeWhile Char.isDigit).isEmpty then none
    else some ('.' :: r.takeWhile Char.isDigit, r.dropWhile Char.isDigit)
  | s => some ([], s)

/-- Optional exponent part `[eE][+-]?digits` of a JSON number. -/
def parseExp : Str → Option (Str × Str)
  | [] => some ([], [])
  | c :: r =>
    if c = 'e' || c = 'E' then
      let p : Str × Str :=
        match r with
        | '+' :: r2 => (['+'], r2)
        | '-' :: r2 => (['-'], r2)
        | _ => ([], r)
      if (p.2.takeWhile Char.isDigit).isEmpty then none
      else some (c :: p.1 ++ p.2.takeWhile Char.isDigit, p.2.dropWhile Char.isDigit)
    else some ([], c :: r)

/-- A JSON number lexeme `-?int frac? exp?`; returns it with the rest of
the input. -/
def parseNum (s : Str) : Option (Str × Str) :=
  let q : Str × Str :=
    match s with
    | '-' :: r => (['-'], r)
    | _ => ([], s)
  do
    let (ip, s2) ← parseIntPart q.2
    let (fp, s3) ← parseFrac s2
    let (ep, s4) ← parseExp s3
    pure (q.1 ++ ip ++ fp ++ ep, s4)

/-- `dict` insertion: a duplicate key keeps its first position and takes
the latest value, as in CPython. -/
def setKV : List (Str × Json) → Str → Json → List (Str × Json)
  | [], k, v => [(k, v)]
  | (k', v') :: rest, k, v =>
    if k' = k then (k', v) :: rest else (k', v') :: setKV rest k v

/-- Build a Python dict from parsed key/value pairs in order. -/
def buildDict (l : List (Str × Json)) : List (Str × Json) :=
  l.foldl (fun acc kv => setKV acc kv.1 kv.2) []

/-- Fueled JSON value parser (leading whitespace already skipped);
returns the value and the remaining input. Arrays and objects recurse
by re-seeding the opening bracket in front of the tail after each
comma, which keeps the recursion structural in the fuel while parsing
the same comma-separated grammar as CPython (no trailing commas,
object keys are strings, `NaN`/`Infinity` accepted). -/
def parseValue : Nat → Str → Option (Json × Str)
  | 0, _ => none
  | fuel + 1, s =>
    match s with
    | 'n' :: 'u' :: 'l' :: 'l' :: r => some (.null, r)
    | 't' :: 'r' :: 'u' :: 'e' :: r => some (.bool true, r)
    | 'f' :: 'a' :: 'l' :: 's' :: 'e' :: r => some (.bool false, r)
    | 'N' :: 'a' :: 'N' :: r => some (.num (txt "NaN"), r)
    | 'I' :: 'n' :: 'f' :: 'i' :: 'n' :: 'i' :: 't' :: 'y' :: r =>
      some (.num (txt "Infinity"), r)
    | '-' :: 'I' :: 'n' :: 'f' :: 'i' :: 'n' :: 'i' :: 't' :: 'y' :: r =>
      some (.num (txt "-Infinity"), r)
    | '"' :: r => (parseJStr r).map (fun p => (.str p.1, p.2))
    | '[' :: r =>
      (match skipWs r with
       | ']' :: r2 => some (.arr [], r2)
       | r2 => do
         let (v, r3) ← parseValue fuel r2
         match skipWs r3 with
         | ']' :: r4 => some (.arr [v], r4)
         | ',' :: r4 =>
           (match skipWs r4 with
            | ']' :: _ => none
            | _ => do
              let (tail, r5) ← parseValue fuel ('[' :: r4)
              match tail with
              | .arr vs => some (.arr (v :: vs), r5)
              | _ => none)
         | _ => none)
    | '\x7b' :: r =>
      (match skipWs r with
       | '\x7d' :: r2 => some (.obj [], r2)
       | '"' :: rk => do
         let (k, r1) ← parseJStr rk
         match skipWs r1 with
         | ':' :: r2 => do
           let (v, r3) ← parseValue fuel (skipWs r2)
           match skipWs r3 with
           | '\x7d' :: r4 => some (.obj [(k, v)], r4)
           | ',' :: r4 =>
             (match skipWs r4 with
              | '"' :: _ => do
                let (tail, r5) ← parseValue fuel ('\x7b' :: r4)
                match tail with
                | .obj kvs => some (.obj (buildDict ((k, v) :: kvs)), r5)
                | _ => none
              | _ => none)
           | _ => none
         | _ => none
       | _ => none)
    | s2 => (parseNum s2).map (fun p => (.num p.1, p.2))

/-- Python `json.loads`: parse a complete document, allowing surrounding
whitespace, rejecting trailing garbage. -/
def jsonParse (s : Str) : Option Json :=
  match parseValue (s.length + 1) (skipWs s) with
  | some (v, rest) => if (skipWs rest).isEmpty then some v else none
  | none => none

/-- The indentation padding of `json.dumps(·, indent=2)` at depth `ind`. -/
def indentPad (ind : Nat) : Str := List.replicate ind ' '

/-- One hexadecimal digit, lowercase. -/
def hexDigit (k : Nat) : Char :=
  if k < 10 then Char.ofNat (48 + k) else Char.ofNat (87 + k)

/-- Four lowercase hex digits. -/
def hex4 (n : Nat) : Str :=
  [hexDigit (n / 4096 % 16), hexDigit (n / 256 % 16),
   hexDigit (n / 16 % 16), hexDigit (n % 16)]

/-- Escape one character as `json.dumps` does with its default
`ensure_ascii=True`: short escapes for the common controls, `\uXXXX`
(with surrogate pairs beyond the BMP) for other controls and all
non-ASCII. -/
def escChar (c : Char) : Str :=
  if c = '"' then ['\\', '"']
  else if c = '\\' then ['\\', '\\']
  else if c = '\n' then ['\\', 'n']
  else if c = '\r' then ['\\', 'r']
  else if c = '\t' then ['\\', 't']
  else if c = '\x08' then ['\\', 'b']
  else if c = '\x0c' then ['\\', 'f']
  else if c.toNat < 0x20 || 0x7e < c.toNat then
    if c.toNat < 0x10000 then '\\' :: 'u' :: hex4 c.toNat
    else
      '\\' :: 'u' :: hex4 (0xD800 + (c.toNat - 0x10000) / 0x400)
        ++ '\\' :: 'u' :: hex4 (0xDC00 + (c.toNat - 0x10000) % 0x400)
  else [c]

/-- Serialize a string as a quoted JSON string (`ensure_ascii=True`). -/
def jsonQuote (s : Str) : Str :=
  '"' :: (s.map escChar).flatten ++ ['"']

mutual

/-- `json.dumps(·, indent=2)` at nesting depth `ind` (the indentation of
the closing bracket). Empty containers print inline; non-empty ones put
each entry on its own line, two more spaces deep, separated by `,\n`,
with `': '` between key and value. -/
def dumpVal : Nat → Json → Str
  | _, .null => txt "null"
  | _, .bool true => txt "true"
  | _, .bool false => txt "false"
  | _, .num lx => lx
  | _, .str s => jsonQuote s
  | _, .arr [] => ['[', ']']
  | ind, .arr (x :: xs) =>
    '[' :: '\n' :: List.intercalate (txt ",\n") (dumpElems (ind + 2) (x :: xs))
      ++ '\n' :: indentPad ind ++ [']']
  | _, .obj [] => ['\x7b', '\x7d']
  | ind, .obj (kv :: kvs) =>
    '\x7b' :: '\n' :: List.intercalate (txt ",\n") (dumpMembers (ind + 2) (kv :: kvs))
      ++ '\n' :: indentPad ind ++ ['\x7d']

/-- Array elements, each indented to depth `ind`, in order. -/
def dumpElems : Nat → List Json → List Str
  | _, [] => []
  | ind, x :: xs => (indentPad ind ++ dumpVal ind x) :: dumpElems ind xs

/-- Object members, each indented to depth `ind`, in entry order. -/
def dumpMembers : Nat → List (Str × Json) → List Str
  | _, [] => []
  | ind, (k, v) :: kvs =>
    (indentPad ind ++ jsonQuote k ++ ':' :: ' ' :: dumpVal ind v)
      :: dumpMembers ind kvs

end

/-- Python `json.dumps(record, indent=2)`. -/
def json_dumps_indent2 (v : Json) : Str := dumpVal 0 v

end Json

/-! ## Embedding of `dfu_v10.py` -/

namespace Dfu

open Py Json

/-- The `ValueError` message of `EnhancedDemoAnalyzer.__init__`. -/
def apiKeyErrMsg : Str :=
  txt "ANTHROPIC_API_KEY not found in environment variables. Please set it in your .env file or environment."

/-- `EnhancedDemoAnalyzer.__init__`: `load_dotenv()` merges the local
`.env` file into the process environment, so `env` models the merged
view. `if not api_key` raises on a missing or empty credential. -/
def initAnalyzer (env : Str → Option Str) : Except Str Unit :=
  match env (txt "ANTHROPIC_API_KEY") with
  | none => .error apiKeyErrMsg
  | some k => if k.isEmpty then .error apiKeyErrMsg else .ok ()

/-- The analyzer's fixed system instruction. -/
def system_prompt : Str :=
  txt "You are an expert sales analyst specializing in healthcare technology demos. \n        Extract detailed insights with a focus on pain points, buying signals, and actionable next steps."

/-- `transcript.strip().replace('\n', ' ').replace('\r', '')` as computed
(and then never used) at the top of `analyze_transcript`. -/
def cleaned_transcript (transcript : Str) : Str :=
  pyreplace (pyreplace (pystrip transcript) (txt "\n") (txt " ")) (txt "\r") []

/-- The analysis prompt f-string up to the `{transcript}` interpolation. -/
def analysisPromptPre : Str :=
  txt "Analyze this sales demo transcript and extract comprehensive insights. \n                    \nReturn your response as a valid JSON object (not a string) with these exact keys. Ensure all values are properly formatted as arrays or objects as specified:\n\ntechnical_requirements: [\n    List specific technical details including:\n    - EHR systems and versions\n    - Integration requirements\n    - Security/compliance needs\n    - Infrastructure specifications\n]\n\npain_points: \x7b\n    \"operational\": [List of operational challenges mentioned],\n    \"technical\": [List of technical challenges],\n    \"financial\": [List of cost/budget related issues],\n    \"clinical\": [List of clinical workflow challenges],\n    \"priority_level\": Map of each pain point to High/Medium/Low based on urgency in discussion\n\x7d\n\nbuying_signals: \x7b\n    \"budget_indicators\": [Phrases indicating budget availability/constraints],\n    \"timeline_urgency\": [Mentions of urgent needs or deadlines],\n    \"decision_process\": [Information about approval process],\n    \"competitor_mentions\": [Any competing solutions discussed],\n    \"positive_signals\": [Encouraging comments/reactions],\n    \"concerns\": [Expressed doubts or worries]\n\x7d\n\nstakeholders: \x7b\n    \"decision_makers\": [List with roles and influence level],\n    \"technical_reviewers\": [Technical stakeholders],\n    \"end_users\": [Who will use the system],\n    \"other_stakeholders\": [Additional involved parties]\n\x7d\n\ntimeline_info: \x7b\n    \"start_date\": Exact date mentioned,\n    \"implementation_phases\": [List of phases with dates],\n    \"dependencies\": [Prerequisites or blockers],\n    \"key_milestones\": [Important timeline events]\n\x7d\n\npricing_discussion: \x7b\n    \"model_discussed\": Pricing model details,\n    \"budget_constraints\": Any mentioned limits,\n    \"competitor_pricing\": Any mentioned competitive prices,\n    \"volume_considerations\": Volume-related details\n\x7d\n\nnext_steps: [\n    List each action item with:\n    \x7b\n        \"action\": Specific task,\n        \"owner\": Responsible party,\n        \"deadline\": Due date,\n        \"priority\": High/Medium/Low\n    \x7d\n]\n\nTRANSCRIPT:\n"

/-- The analysis prompt f-string after the `{transcript}` interpolation. -/
def analysisPromptPost : Str := txt "\n"

/-- The user-role message content sent by `analyze_transcript`. The
f-string interpolates the raw `transcript` parameter — not the
`cleaned_transcript` value computed just above it in the source. -/
def analysis_prompt (transcript : Str) : Str :=
  analysisPromptPre ++ transcript ++ analysisPromptPost

/-- The markdown fence stripping of `validate_json_response`:
`text.split("```json")[1].split("```")[0]` when a tagged fence is
present, the same with `"```"` when only a bare fence is present,
otherwise the text unchanged. -/
def stripFences (text : Str) : Str :=
  if pyContains (txt "```json") text then
    (pysplit (txt "```") ((pysplit (txt "```json") text).getD 1 [])).getD 0 []
  else if pyContains (txt "```") text then
    (pysplit (txt "```") ((pysplit (txt "```") text).getD 1 [])).getD 0 []
  else text

/-- `validate_json_response`: strip optional fences, then
`json.loads(text.strip())`. On a parse failure the two `st.error`
messages are emitted and the `JSONDecodeError` re-raised, modelled by
`Except.error` carrying the messages (the Python exception detail
string after each message prefix is elided from the model). -/
def validate_json_response (text : Str) : Except (List Str) Json :=
  let t := stripFences text
  match jsonParse (pystrip t) with
  | some v => .ok v
  | none =>
    .error [txt "JSON parsing error: ",
            txt "Raw response: " ++ t.take 500 ++ txt "..."]

/-- `analyze_transcript`, with the external generation call stubbed by
its response text (the effect-boundary substitution the spec's design
notes call for). Returns the parsed record or `none`, together with the
`st.error` messages emitted. The outer `except` catches every
exception, reports it, and returns `None`, so the function is total:
no exception reaches the caller. -/
def analyze_transcript (transcript responseText : Str) : Option Json × List Str :=
  let _cleaned := cleaned_transcript transcript
  let _prompt := analysis_prompt transcript
  match validate_json_response responseText with
  | .ok v => (some v, [])
  | .error msgs => (none, msgs ++ [txt "Error analyzing transcript: "])

/-- The `template_prompts` dict of `generate_email_template`. -/
def template_prompts : List (Str × Str) :=
  [(txt "technical", txt "Focus on technical details and integration pathway"),
   (txt "executive", txt "Emphasize ROI and strategic value"),
   (txt "clinical", txt "Focus on clinical workflow improvements and patient care"),
   (txt "standard", txt "Balanced overview of all aspects")]

/-- `template_prompts.get(template_type, template_prompts["standard"])`. -/
def selectedPrompt (template_type : Str) : Str :=
  (template_prompts.lookup template_type).getD
    ((template_prompts.lookup (txt "standard")).getD [])

/-- Pieces of the email f-string around its three interpolations. -/
def emailPromptP1 : Str := txt "Write a strategic follow-up email to "

/-- Email f-string between `{contact_name}` and `{prompt}`. -/
def emailPromptP2 : Str :=
  txt ". \n\nRequirements:\n1. Address key pain points identified and how we solve them\n2. Reference specific technical requirements discussed\n3. Acknowledge timeline needs\n4. Include clear next steps with ownership\n5. Maintain urgency while being professional\n\nStyle Guide:\n- Clear and concise\n- Professional but conversational\n- Action-oriented\n- Value-focused\n\nTemplate Focus: "

/-- Email f-string between `{prompt}` and the serialized insights. -/
def emailPromptP3 : Str := txt "\n\nINSIGHTS:\n"

/-- The user-role message content sent by `generate_email_template`. -/
def email_prompt (contact_name promptFrag : Str) (insights : Json) : Str :=
  emailPromptP1 ++ contact_name ++ emailPromptP2 ++ promptFrag ++ emailPromptP3
    ++ json_dumps_indent2 insights

/-- `generate_email_template`, generation stubbed: `some text` for a
successful call, `none` for a raised exception, in which case the
`except` branch reports (`st.error`, prefix modelled) and returns the
empty string. -/
def generate_email_template (insights : Json) (contact_name template_type : Str)
    (serviceResponse : Option Str) : Str × List Str :=
  let prompt := selectedPrompt template_type
  let _msg := email_prompt contact_name prompt insights
  match serviceResponse with
  | some t => (t, [])
  | none => ([], [txt "Error generating email: "])

/-- The Streamlit session slots relevant to the Analyze flow. -/
structure SessionState where
  insights : Option Json
  email_draft : Option Str

/-- Python truthiness of a number by its lexeme: zero mantissas are
falsy; `NaN` and the infinities (no digits) are truthy. -/
def numTruthy (lx : Str) : Bool :=
  if lx.any Char.isDigit then
    (lx.takeWhile (fun c => c != 'e' && c != 'E')).any
      (fun c => c.isDigit && c != '0')
  else true

/-- Python truthiness of a value returned by `json.loads`. -/
def jsonTruthy : Json → Bool
  | .null => false
  | .bool b => b
  | .num lx => numTruthy lx
  | .str s => !s.isEmpty
  | .arr l => !l.isEmpty
  | .obj l => !l.isEmpty

/-- Truthiness of the `insights` session slot (`None` is falsy). -/
def optionTruthy : Option Json → Bool
  | none => false
  | some v => jsonTruthy v

/-- One press of the "Analyze Demo" button (`main`), with the two
service calls stubbed. Returns the new session state, whether the email
drafter was invoked, and the `st.error` messages emitted; an uncaught
exception (the missing-credential `ValueError` from constructing the
analyzer) is `Except.error`. -/
def analyzeClick (env : Str → Option Str) (state : SessionState)
    (contact_name transcript template_type : Str)
    (analysisResponse : Str) (emailResponse : Option Str) :
    Except Str (SessionState × Bool × List Str) :=
  if transcript.isEmpty then
    .ok (state, false, [txt "Please paste a demo transcript"])
  else
    match initAnalyzer env with
    | .error e => .error e
    | .ok _ =>
      let res := analyze_transcript transcript analysisResponse
      let state1 : SessionState := { state with insights := res.1 }
      if !contact_name.isEmpty && optionTruthy state1.insights then
        let draft := generate_email_template (res.1.getD .null) contact_name
          template_type emailResponse
        .ok ({ state1 with email_draft := some draft.1 }, true, res.2 ++ draft.2)
      else
        .ok (state1, false, res.2)


/-! ### Python access primitives used by the rendering code -/

/-- Python `d[k]` on a parsed JSON value: `KeyError` when the key is
missing, `TypeError` when the value is not a dict. -/
def getItem (j : Json) (k : Str) : Except Str Json :=
  match j with
  | .obj kvs =>
    match kvs.lookup k with
    | some v => .ok v
    | none => .error (txt "KeyError: " ++ k)
  | _ => .error (txt "TypeError: not subscriptable by string")

/-- Python `d.get(k, default)` with a string key. -/
def dictGet (j : Json) (k : Str) (dflt : Json) : Except Str Json :=
  match j with
  | .obj kvs => .ok ((kvs.lookup k).getD dflt)
  | _ => .error (txt "AttributeError: get")

/-- Python `d.get(key, default)` where `key` is itself a parsed value:
a string key looks up; `None`, booleans and numbers are hashable but
never equal a `json.loads` string key, so they yield the default;
lists and dicts raise `TypeError: unhashable`. -/
def dictGetJ (j : Json) (key : Json) (dflt : Json) : Except Str Json :=
  match j with
  | .obj kvs =>
    match key with
    | .str s => .ok ((kvs.lookup s).getD dflt)
    | .arr _ => .error (txt "TypeError: unhashable type")
    | .obj _ => .error (txt "TypeError: unhashable type")
    | _ => .ok dflt
  | _ => .error (txt "AttributeError: get")

/-- Python `d.items()`: `AttributeError` when not a dict. -/
def items (j : Json) : Except Str (List (Str × Json)) :=
  match j with
  | .obj kvs => .ok kvs
  | _ => .error (txt "AttributeError: items")

/-- Python `for x in v`: lists yield elements, strings yield
one-character strings, dicts yield their keys, other scalars raise
`TypeError: not iterable`. -/
def pyIter (j : Json) : Except Str (List Json) :=
  match j with
  | .arr l => .ok l
  | .str s => .ok (s.map (fun c => .str [c]))
  | .obj kvs => .ok (kvs.map (fun kv => Json.str kv.1))
  | _ => .error (txt "TypeError: not iterable")

mutual

/-- Python `repr()` of a parsed JSON value (display only; strings are
shown single-quoted without re-escaping, an inessential deviation). -/
def pyRepr : Json → Str
  | .null => txt "None"
  | .bool true => txt "True"
  | .bool false => txt "False"
  | .num lx => lx
  | .str s => '\'' :: s ++ ['\'']
  | .arr [] => txt "[]"
  | .arr (x :: xs) =>
    '[' :: List.intercalate (txt ", ") (pyReprList (x :: xs)) ++ [']']
  | .obj [] => txt "\x7b\x7d"
  | .obj (kv :: kvs) =>
    '\x7b' :: List.intercalate (txt ", ") (pyReprKVs (kv :: kvs)) ++ ['\x7d']

/-- Elementwise `repr` of list entries. -/
def pyReprList : List Json → List Str
  | [] => []
  | x :: xs => pyRepr x :: pyReprList xs

/-- Elementwise `repr` of dict entries. -/
def pyReprKVs : List (Str × Json) → List Str
  | [] => []
  | (k, v) :: kvs => ('\'' :: k ++ '\'' :: ':' :: ' ' :: pyRepr v) :: pyReprKVs kvs

end

/-- Python `str()` of a parsed JSON value, as interpolated by
f-strings: a string is itself, everything else its `repr`. -/
def pyStr : Json → Str
  | .str s => s
  | v => pyRepr v

/-- Python `v[:20]` on a parsed JSON value (strings and lists slice;
anything else raises). -/
def pySlice20 : Json → Except Str Json
  | .str s => .ok (.str (s.take 20))
  | .arr l => .ok (.arr (l.take 20))
  | _ => .error (txt "TypeError: not subscriptable by slice")

/-- Python `v == "s"` for a parsed value `v`: true exactly when `v` is
that string. -/
def jeqStr (j : Json) (s : Str) : Bool :=
  match j with
  | .str t => t == s
  | _ => false

/-- The priority emoji choice used twice in the rendering code. -/
def prioEmoji (prio : Json) : Str :=
  if jeqStr prio (txt "High") then txt "🔴"
  else if jeqStr prio (txt "Medium") then txt "🟡"
  else txt "🟢"

/-- The "Key Insights" rendering of `main` (the `col2` body, reached
when the `insights` slot is truthy): collects every `st.markdown` text
and `st.checkbox` label in emission order. A Python lookup or type
failure aborts with that error, as the uncaught exception aborts the
Streamlit script run; the `.get` calls with defaults (per-point
priorities, timeline dependencies) are the only defensive accesses in
the source. -/
def renderInsights (insights : Json) : Except Str (List Str) := do
  let pp ← getItem insights (txt "pain_points")
  let ppItems ← items pp
  let pain ← ppItems.foldlM (fun (acc : List Str) kv => do
    if kv.1 == txt "priority_level" then
      pure acc
    else do
      let pts ← pyIter kv.2
      let ls ← pts.mapM (fun point => do
        let pp2 ← getItem insights (txt "pain_points")
        let plv ← getItem pp2 (txt "priority_level")
        let prio ← dictGetJ plv point (Json.str (txt "Medium"))
        pure (prioEmoji prio ++ txt " " ++ pyStr point))
      pure (acc ++ (txt "**" ++ pyTitle kv.1 ++ txt "**") :: ls)) []
  let bs ← getItem insights (txt "buying_signals")
  let bsItems ← items bs
  let buying ← bsItems.foldlM (fun (acc : List Str) kv => do
    let sigs ← pyIter kv.2
    pure (acc ++
      (txt "**" ++ pyTitle (pyreplace kv.1 (txt "_") (txt " ")) ++ txt "**")
        :: sigs.map (fun s => txt "• " ++ pyStr s))) []
  let tr ← getItem insights (txt "technical_requirements")
  let reqs ← pyIter tr
  let tech := reqs.map (fun r => txt "• " ++ pyStr r)
  let sh ← getItem insights (txt "stakeholders")
  let shItems ← items sh
  let stake ← shItems.foldlM (fun (acc : List Str) kv => do
    let people ← pyIter kv.2
    pure (acc ++
      (txt "**" ++ pyTitle (pyreplace kv.1 (txt "_") (txt " ")) ++ txt "**")
        :: people.map (fun p => txt "• " ++ pyStr p))) []
  let timeline ← getItem insights (txt "timeline_info")
  let sd ← getItem timeline (txt "start_date")
  let phasesV ← getItem timeline (txt "implementation_phases")
  let phases ← pyIter phasesV
  let deps ← dictGet timeline (txt "dependencies") Json.null
  let depLines ←
    if jsonTruthy deps then do
      let dv ← getItem timeline (txt "dependencies")
      let ds ← pyIter dv
      pure ((txt "**Dependencies:**") :: ds.map (fun d => txt "• " ++ pyStr d))
    else pure ([] : List Str)
  let timelineLines :=
    (txt "**Start Date:** " ++ pyStr sd)
      :: txt "**Implementation Phases:**"
      :: phases.map (fun p => txt "• " ++ pyStr p) ++ depLines
  let pd ← getItem insights (txt "pricing_discussion")
  let pdItems ← items pd
  let pricing := pdItems.map (fun kv =>
    txt "**" ++ pyTitle (pyreplace kv.1 (txt "_") (txt " ")) ++ txt ":** "
      ++ pyStr kv.2)
  let ns ← getItem insights (txt "next_steps")
  let nsItems ← pyIter ns
  let actions ← nsItems.mapM (fun item => do
    let prio ← getItem item (txt "priority")
    let act ← getItem item (txt "action")
    let own ← getItem item (txt "owner")
    let ddl ← getItem item (txt "deadline")
    let act2 ← getItem item (txt "action")
    let _ ← pySlice20 act2
    pure (prioEmoji prio ++ txt " " ++ pyStr act ++ txt " (Owner: "
      ++ pyStr own ++ txt ", Due: " ++ pyStr ddl ++ txt ")"))
  pure (pain ++ buying ++ tech ++ stake ++ timelineLines ++ pricing ++ actions)

end Dfu

/-- Concrete well-formed response body used for C1. -/
def c1Body : Str := txt "\x7b\"technical_requirements\": [\"Epic integration\"]\x7d"

/-- The structured value denoted by `c1Body`. -/
def c1Val : Json :=
  Json.obj [(txt "technical_requirements", Json.arr [Json.str (txt "Epic integration")])]

/-! ## Lemmas about the Python string primitives -/

namespace Py

theorem pyPrefix_trans {a b c : Str} (h1 : pyPrefix a b = true)
    (h2 : pyPrefix b c = true) : pyPrefix a c = true := by
  induction c generalizing a b with
  | nil =>
    cases b with
    | nil => cases a with
      | nil => rfl
      | cons x xs => simp [pyPrefix] at h1
    | cons y ys => simp [pyPrefix] at h2
  | cons z zs ih =>
    cases b with
    | nil =>
      cases a with
      | nil => rfl
      | cons x xs => simp [pyPrefix] at h1
    | cons y ys =>
      cases a with
      | nil => rfl
      | cons x xs =>
        simp only [pyPrefix, Bool.and_eq_true, beq_iff_eq] at h1 h2 ⊢
        exact ⟨h1.1.trans h2.1, ih h1.2 h2.2⟩

theorem pyPrefix_append (a r : Str) : pyPrefix a (a ++ r) = true := by
  induction a with
  | nil => rfl
  | cons x xs ih => simp [pyPrefix, ih]

theorem pyContains_cons (sub : Str) (c : Char) (rest : Str) :
    pyContains sub (c :: rest) = (pyPrefix sub (c :: rest) || pyContains sub rest) :=
  rfl

theorem pyContains_cons_eq {sub : Str} {c : Char} {rest : Str}
    (h : pyPrefix sub (c :: rest) = false) :
    pyContains sub (c :: rest) = pyContains sub rest := by
  simp [pyContains_cons, h]

theorem pyContains_of_pyPrefix {sub s : Str} (h : pyPrefix sub s = true)
    (hs : sub ≠ []) : pyContains sub s = true := by
  cases s with
  | nil => cases sub with
    | nil => exact absurd rfl hs
    | cons x xs => simp [pyPrefix] at h
  | cons c rest => simp [pyContains_cons, h]

theorem pyContains_mono {a b s : Str} (hab : pyPrefix a b = true)
    (h : pyContains a s = false) : pyContains b s = false := by
  induction s with
  | nil =>
    cases a with
    | nil => simp [pyContains] at h
    | cons x xs =>
      cases b with
      | nil => simp [pyPrefix] at hab
      | cons y ys => simp [pyContains]
  | cons c rest ih =>
    simp only [pyContains_cons, Bool.or_eq_false_iff] at h ⊢
    refine ⟨?_, ih h.2⟩
    cases hp : pyPrefix b (c :: rest) with
    | false => rfl
    | true => exact absurd (pyPrefix_trans hab hp) (by simp [h.1])

theorem pyContains_self_append {a : Str} (r : Str) (ha : a ≠ []) :
    pyContains a (a ++ r) = true := by
  cases a with
  | nil => exact absurd rfl ha
  | cons x xs =>
    simpa [pyContains_cons] using Or.inl (pyPrefix_append (x :: xs) r)

theorem pyContains_mid {x : Str} (a b : Str) (hx : x ≠ []) :
    pyContains x (a ++ x ++ b) = true := by
  induction a with
  | nil => simpa using pyContains_self_append b hx
  | cons d a' ih =>
    simp only [List.cons_append, pyContains_cons]
    simpa [ih] using Or.inr ih

theorem pyPrefix_append_cons {x : Str} (a : Str) {c : Char} (b : Str)
    (h : pyPrefix x (a ++ c :: b) = true) : pyPrefix x a = true ∨ c ∈ x := by
  induction a generalizing x with
  | nil =>
    cases x with
    | nil => exact Or.inl rfl
    | cons y ys =>
      simp only [List.nil_append, pyPrefix, Bool.and_eq_true, beq_iff_eq] at h
      exact Or.inr (by simp [h.1])
  | cons d a' ih =>
    cases x with
    | nil => exact Or.inl rfl
    | cons y ys =>
      simp only [List.cons_append, pyPrefix, Bool.and_eq_true] at h
      rcases ih h.2 with h2 | h2
      · exact Or.inl (by simp [pyPrefix, h.1, h2])
      · exact Or.inr (List.mem_cons_of_mem _ h2)

theorem pyContains_append_cons {sep a : Str} {c : Char} (b : Str)
    (h1 : pyContains sep a = false) (h2 : c ∉ sep) :
    pyContains sep (a ++ c :: b) = pyContains sep (c :: b) := by
  induction a with
  | nil => rfl
  | cons d a' ih =>
    simp only [pyContains_cons, Bool.or_eq_false_iff] at h1
    have hp : pyPrefix sep (d :: (a' ++ c :: b)) = false := by
      cases hq : pyPrefix sep (d :: (a' ++ c :: b)) with
      | false => rfl
      | true =>
        rcases @pyPrefix_append_cons sep (d :: a') _ b (by simpa using hq) with h3 | h3
        · exact absurd h3 (by simp [h1.1])
        · exact absurd h3 h2
    simp only [List.cons_append, pyContains_cons, hp, Bool.false_or]
    exact ih h1.2

theorem pysplitF_of_le (sep : Str) :
    ∀ (f : Nat) (s : Str), s.length ≤ f → pysplitF sep f s = pysplit sep s := by
  intro f
  induction f using Nat.strong_induction_on with
  | _ f ih =>
    intro s hs
    cases s with
    | nil => cases f <;> rfl
    | cons c rest =>
      cases f with
      | zero => simp at hs
      | succ f' =>
        have hf : rest.length ≤ f' := by simp at hs; omega
        show pysplitF sep (f' + 1) (c :: rest) = pysplitF sep (rest.length + 1) (c :: rest)
        simp only [pysplitF]
        by_cases hc : (pyPrefix sep (c :: rest) && !sep.isEmpty) = true
        · simp only [hc, if_true]
          have hlen : (rest.drop (sep.length - 1)).length ≤ rest.length := by
            simp [List.length_drop]
          rw [ih f' (by omega) _ (le_trans hlen hf),
            ih rest.length (by omega) _ hlen]
        · simp only [hc, if_false]
          rw [ih f' (by omega) _ hf]
          rfl

theorem pysplit_nil (sep : Str) : pysplit sep [] = [[]] := rfl

theorem pysplit_cons_pos {sep : Str} {c : Char} {rest : Str}
    (hc : (pyPrefix sep (c :: rest) && !sep.isEmpty) = true) :
    pysplit sep (c :: rest) = [] :: pysplit sep (rest.drop (sep.length - 1)) := by
  show pysplitF sep (rest.length + 1) (c :: rest) = _
  simp only [pysplitF, hc, if_true]
  rw [pysplitF_of_le sep rest.length _ (by simp [List.length_drop])]

theorem pysplit_cons_neg {sep : Str} {c : Char} {rest : Str}
    (hc : (pyPrefix sep (c :: rest) && !sep.isEmpty) = false) :
    pysplit sep (c :: rest) =
      List.modifyHead (fun t => c :: t) (pysplit sep rest) := by
  show pysplitF sep (rest.length + 1) (c :: rest) = _
  simp only [pysplitF, hc, if_false]
  rfl

theorem pysplit_of_not_contains {sep s : Str} (h : pyContains sep s = false) :
    pysplit sep s = [s] := by
  induction s with
  | nil => rfl
  | cons c rest ih =>
    simp only [pyContains_cons, Bool.or_eq_false_iff] at h
    rw [pysplit_cons_neg (by simp [h.1]), ih h.2]
    rfl

theorem pysplit_append_self {sep : Str} (s : Str) (hsep : sep ≠ []) :
    pysplit sep (sep ++ s) = [] :: pysplit sep s := by
  cases sep with
  | nil => exact absurd rfl hsep
  | cons c sep' =>
    have hc : (pyPrefix (c :: sep') (c :: (sep' ++ s)) && !(c :: sep').isEmpty) = true := by
      have h := pyPrefix_append (c :: sep') s
      simp only [List.cons_append] at h
      simp [h]
    rw [show (c :: sep') ++ s = c :: (sep' ++ s) from rfl, pysplit_cons_pos hc]
    congr 1
    rw [show (c :: sep').length - 1 = sep'.length by simp, List.drop_left sep' s]

theorem pysplit_append_cons {sep a : Str} {c : Char} (b : Str)
    (h1 : pyContains sep a = false) (h2 : c ∉ sep) :
    pysplit sep (a ++ c :: b) =
      List.modifyHead (fun t => a ++ t) (pysplit sep (c :: b)) := by
  induction a with
  | nil =>
    simp only [List.nil_append]
    cases pysplit sep (c :: b) <;> simp
  | cons d a' ih =>
    simp only [pyContains_cons, Bool.or_eq_false_iff] at h1
    have hp : pyPrefix sep (d :: (a' ++ c :: b)) = false := by
      cases hq : pyPrefix sep (d :: (a' ++ c :: b)) with
      | false => rfl
      | true =>
        rcases @pyPrefix_append_cons sep (d :: a') _ b (by simpa using hq) with h3 | h3
        · exact absurd h3 (by simp [h1.1])
        · exact absurd h3 h2
    simp only [List.cons_append]
    rw [pysplit_cons_neg (by simp [hp]), ih h1.2]
    cases pysplit sep (c :: b) <;> simp

theorem pystrip_cons_space {c : Char} (s : Str) (h : isPySpace c = true) :
    pystrip (c :: s) = pystrip s := by
  simp [pystrip, List.dropWhile_cons, h]

theorem pystrip_append_space {c : Char} (s : Str) (h : isPySpace c = true) :
    pystrip (s ++ [c]) = pystrip s := by
  induction s with
  | nil => simp [pystrip, List.dropWhile_cons, h]
  | cons d s' ih =>
    by_cases hd : isPySpace d = true
    · rw [show (d :: s') ++ [c] = d :: (s' ++ [c]) from rfl,
        pystrip_cons_space _ hd, pystrip_cons_space _ hd, ih]
    · have hd' : isPySpace d = false := by simpa using hd
      have e1 : (d :: (s' ++ [c])).dropWhile isPySpace = d :: (s' ++ [c]) := by
        simp [List.dropWhile_cons, hd']
      have e2 : (d :: s').dropWhile isPySpace = d :: s' := by
        simp [List.dropWhile_cons, hd']
      rw [show (d :: s') ++ [c] = d :: (s' ++ [c]) from rfl]
      simp only [pystrip, e1, e2, List.reverse_cons, List.reverse_append,
        List.reverse_nil, List.nil_append, List.cons_append]
      simp [List.dropWhile_cons, h]

end Py

/-! ## Lemmas about the fence stripping -/

namespace Dfu

open Py Json

theorem pyPrefix_sepJ_nl (M : Str) : pyPrefix (txt "```json") ('\n' :: M) = false := rfl

theorem pyPrefix_sep3_nl (M : Str) : pyPrefix (txt "```") ('\n' :: M) = false := rfl

theorem pyPrefix_sepJ_b3nl (M : Str) :
    pyPrefix (txt "```json") ('\x60' :: '\x60' :: '\x60' :: '\n' :: M) = false := rfl

theorem pyPrefix_sepJ_b2nl (M : Str) :
    pyPrefix (txt "```json") ('\x60' :: '\x60' :: '\n' :: M) = false := rfl

theorem pyPrefix_sepJ_b1nl (M : Str) :
    pyPrefix (txt "```json") ('\x60' :: '\n' :: M) = false := rfl

theorem txt_nl3 : txt "\n```" = '\n' :: txt "```" := by decide

theorem txt_j_nl : txt "```json\n" = txt "```json" ++ ['\n'] := by decide

theorem txt_3_nl : txt "```\n" = txt "```" ++ ['\n'] := by decide

theorem txt_fence4 : txt "```\n" = '\x60' :: '\x60' :: '\x60' :: ['\n'] := by decide

theorem noJson_of_no3 {t : Str} (h : pyContains (txt "```") t = false) :
    pyContains (txt "```json") t = false :=
  pyContains_mono (by decide) h

/-- The tail `"\n" + t + "\n```"` left by removing a fence opener holds
no `"```json"` when `t` holds no `"```"`. -/
theorem tail_no_sepJ {t : Str} (h : pyContains (txt "```") t = false) :
    pyContains (txt "```json") ('\n' :: (t ++ txt "\n```")) = false := by
  rw [pyContains_cons_eq (pyPrefix_sepJ_nl _), txt_nl3,
    pyContains_append_cons (txt "```") (noJson_of_no3 h) (by decide)]
  decide

/-- A bare-fence-wrapped body with no inner `"```"` holds no
`"```json"`. -/
theorem bare_no_sepJ {t : Str} (h : pyContains (txt "```") t = false) :
    pyContains (txt "```json") (txt "```\n" ++ t ++ txt "\n```") = false := by
  have e : txt "```\n" ++ t ++ txt "\n```"
      = '\x60' :: '\x60' :: '\x60' :: '\n' :: (t ++ txt "\n```") := by
    rw [List.append_assoc, txt_fence4]
    simp
  rw [e, pyContains_cons_eq (pyPrefix_sepJ_b3nl _),
    pyContains_cons_eq (pyPrefix_sepJ_b2nl _),
    pyContains_cons_eq (pyPrefix_sepJ_b1nl _)]
  exact tail_no_sepJ h

/-- Splitting the de-fenced tail on `"```"`: the body with its newline
margins, then the leftover of the closing fence. -/
theorem split3_tail {t : Str} (h : pyContains (txt "```") t = false) :
    pysplit (txt "```") ('\n' :: (t ++ txt "\n```"))
      = ['\n' :: (t ++ ['\n']), []] := by
  have e : '\n' :: (t ++ txt "\n```") = ('\n' :: t) ++ '\n' :: txt "```" := by
    rw [txt_nl3]
    simp
  have h1 : pyContains (txt "```") ('\n' :: t) = false := by
    rw [pyContains_cons_eq (pyPrefix_sep3_nl t)]; exact h
  rw [e, pysplit_append_cons (txt "```") h1 (by decide),
    show pysplit (txt "```") ('\n' :: txt "```") = [['\n'], []] by decide]
  simp

/-- `stripFences` on a `"```json"`-tagged fence recovers the body with
its newline margins. -/
theorem stripFences_json {t : Str} (h : pyContains (txt "```") t = false) :
    stripFences (txt "```json\n" ++ t ++ txt "\n```") = '\n' :: (t ++ ['\n']) := by
  have e : txt "```json\n" ++ t ++ txt "\n```"
      = txt "```json" ++ ('\n' :: (t ++ txt "\n```")) := by
    rw [List.append_assoc, txt_j_nl]
    simp
  have g1 : pyContains (txt "```json") (txt "```json\n" ++ t ++ txt "\n```") = true := by
    rw [e]; exact pyContains_self_append _ (by decide)
  have s1 : pysplit (txt "```json") (txt "```json\n" ++ t ++ txt "\n```")
      = [[], '\n' :: (t ++ txt "\n```")] := by
    rw [e, pysplit_append_self _ (by decide),
      pysplit_of_not_contains (tail_no_sepJ h)]
  simp only [stripFences, g1, if_true, s1]
  rw [show ([[], '\n' :: (t ++ txt "\n```")].getD 1 [] : Str)
      = '\n' :: (t ++ txt "\n```") from rfl, split3_tail h]
  rfl

/-- `stripFences` on a bare fence recovers the body with its newline
margins. -/
theorem stripFences_bare {t : Str} (h : pyContains (txt "```") t = false) :
    stripFences (txt "```\n" ++ t ++ txt "\n```") = '\n' :: (t ++ ['\n']) := by
  have e : txt "```\n" ++ t ++ txt "\n```"
      = txt "```" ++ ('\n' :: (t ++ txt "\n```")) := by
    rw [List.append_assoc, txt_3_nl]
    simp
  have g1 : pyContains (txt "```json") (txt "```\n" ++ t ++ txt "\n```") = false :=
    bare_no_sepJ h
  have g2 : pyContains (txt "```") (txt "```\n" ++ t ++ txt "\n```") = true := by
    rw [e]; exact pyContains_self_append _ (by decide)
  have s1 : pysplit (txt "```") (txt "```\n" ++ t ++ txt "\n```")
      = [[], '\n' :: (t ++ ['\n']), []] := by
    rw [e, pysplit_append_self _ (by decide), split3_tail h]
  have s2 : pysplit (txt "```") ('\n' :: (t ++ ['\n'])) = ['\n' :: (t ++ ['\n'])] := by
    refine pysplit_of_not_contains ?_
    rw [pyContains_cons_eq (pyPrefix_sep3_nl _),
      pyContains_append_cons [] h (by decide)]
    decide
  simp only [stripFences, g1, Bool.false_eq_true, if_false, g2, if_true, s1]
  rw [show ([[], '\n' :: (t ++ ['\n']), []].getD 1 [] : Str)
      = '\n' :: (t ++ ['\n']) from rfl, s2]
  rfl

/-- `stripFences` leaves fence-free text unchanged. -/
theorem stripFences_plain {t : Str} (h : pyContains (txt "```") t = false) :
    stripFences t = t := by
  simp [stripFences, noJson_of_no3 h, h]

/-- Stripping the newline margins. -/
theorem pystrip_margins (t : Str) :
    pystrip ('\n' :: (t ++ ['\n'])) = pystrip t := by
  rw [pystrip_cons_space _ (by decide), pystrip_append_space _ (by decide)]


/-- `validate_json_response` on text whose stripped form parses. -/
theorem validate_eq_ok {text : Str} {v : Json}
    (h : jsonParse (pystrip (stripFences text)) = some v) :
    validate_json_response text = .ok v := by
  simp only [validate_json_response]
  rw [h]

/-- `validate_json_response` on text whose stripped form does not
parse: the two `st.error` messages, then the re-raise. -/
theorem validate_eq_err {text : Str}
    (h : jsonParse (pystrip (stripFences text)) = none) :
    validate_json_response text =
      .error [txt "JSON parsing error: ",
        txt "Raw response: " ++ (stripFences text).take 500 ++ txt "..."] := by
  simp only [validate_json_response]
  rw [h]


/-- `analyze_transcript` on an unparseable response: no record, three
reported messages. -/
theorem analyze_transcript_err {transcript response : Str}
    (h : jsonParse (pystrip (stripFences response)) = none) :
    analyze_transcript transcript response
      = (none, [txt "JSON parsing error: ",
          txt "Raw response: " ++ (stripFences response).take 500 ++ txt "...",
          txt "Error analyzing transcript: "]) := by
  simp only [analyze_transcript]
  rw [validate_eq_err h]
  rfl

/-- The Analyze button flow when the drafting condition
(`contact_name and st.session_state.insights`) is falsy: the insights
slot is overwritten with the analyzer result, the drafter is not
invoked, and the email draft slot is untouched. -/
theorem analyzeClick_noDraft {env : Str → Option Str} {state : SessionState}
    {contact transcript ttype response : Str} {eresp : Option Str}
    (ht : transcript.isEmpty = false)
    (henv : initAnalyzer env = .ok ())
    (hcond : (!contact.isEmpty
        && optionTruthy (analyze_transcript transcript response).1) = false) :
    analyzeClick env state contact transcript ttype response eresp
      = .ok ({ state with insights := (analyze_transcript transcript response).1 },
          false, (analyze_transcript transcript response).2) := by
  simp only [analyzeClick, ht, Bool.false_eq_true, if_false]
  rw [henv]
  simp only [hcond, Bool.false_eq_true, if_false]

/-- The Analyze button flow when the drafting condition is truthy: the
insights slot is overwritten, the drafter is invoked, and the draft
slot receives the drafter's text. -/
theorem analyzeClick_draft {env : Str → Option Str} {state : SessionState}
    {contact transcript ttype response : Str} {eresp : Option Str}
    (ht : transcript.isEmpty = false)
    (henv : initAnalyzer env = .ok ())
    (hcond : (!contact.isEmpty
        && optionTruthy (analyze_transcript transcript response).1) = true) :
    analyzeClick env state contact transcript ttype response eresp
      = .ok ({ state with
            insights := (analyze_transcript transcript response).1,
            email_draft := some (generate_email_template
              ((analyze_transcript transcript response).1.getD .null)
              contact ttype eresp).1 },
          true,
          (analyze_transcript transcript response).2
            ++ (generate_email_template
              ((analyze_transcript transcript response).1.getD .null)
              contact ttype eresp).2) := by
  simp only [analyzeClick, ht, Bool.false_eq_true, if_false]
  rw [henv]
  simp only [hcond, if_true]

end Dfu

/-! ## Claim theorems -/


set_option maxHeartbeats 4000000 in
/-- **C1 (counterexample).** The claim quantifies over every response
text that is valid JSON matching the schema; a schema-conforming value
whose string content contains the fence marker `"```"` is valid JSON,
yet `validate_json_response` splits inside it and fails, so the round
trip is not lossless for all well-formed input. -/
theorem C1_fence_roundtrip_cex :
    Json.jsonParse (Py.pystrip (txt "\x7b\"technical_requirements\": [\"```\"]\x7d"))
      = some (Json.obj [(txt "technical_requirements", Json.arr [Json.str (txt "```")])])
    ∧ (Dfu.validate_json_response
        (txt "\x7b\"technical_requirements\": [\"```\"]\x7d")).isOk = false :=
  ⟨rfl, rfl⟩

/-- **C1 (amended).** For every response text whose body contains no
`"```"` marker and whose stripped form is valid JSON denoting `v`,
`validate_json_response` recovers exactly `v` — unwrapped, wrapped in a
```json-tagged fence, or wrapped in a bare ``` fence: the round trip
through fence-stripping and parsing is lossless. -/
theorem C1_fence_roundtrip_amended (t : Str) (v : Json)
    (hfence : Py.pyContains (txt "```") t = false)
    (hv : Json.jsonParse (Py.pystrip t) = some v) :
    Dfu.validate_json_response t = .ok v
    ∧ Dfu.validate_json_response (txt "```json\n" ++ t ++ txt "\n```") = .ok v
    ∧ Dfu.validate_json_response (txt "```\n" ++ t ++ txt "\n```") = .ok v := by
  refine ⟨?_, ?_, ?_⟩
  · exact Dfu.validate_eq_ok (by rw [Dfu.stripFences_plain hfence, hv])
  · exact Dfu.validate_eq_ok
      (by rw [Dfu.stripFences_json hfence, Dfu.pystrip_margins, hv])
  · exact Dfu.validate_eq_ok
      (by rw [Dfu.stripFences_bare hfence, Dfu.pystrip_margins, hv])

set_option maxHeartbeats 4000000 in
/-- **C1 (witness).** The amended theorem applied to the spec's own
example body, in all three wrappings. -/
theorem C1_fence_roundtrip_witness :
    Py.pyContains (txt "```") c1Body = false
    ∧ Json.jsonParse (Py.pystrip c1Body) = some c1Val
    ∧ Dfu.validate_json_response c1Body = .ok c1Val
    ∧ Dfu.validate_json_response (txt "```json\n" ++ c1Body ++ txt "\n```") = .ok c1Val
    ∧ Dfu.validate_json_response (txt "```\n" ++ c1Body ++ txt "\n```") = .ok c1Val :=
  ⟨rfl, rfl, (C1_fence_roundtrip_amended c1Body c1Val rfl rfl).1,
    (C1_fence_roundtrip_amended c1Body c1Val rfl rfl).2.1,
    (C1_fence_roundtrip_amended c1Body c1Val rfl rfl).2.2⟩

/-- **C2.** For every response text that is not parseable as JSON after
fence stripping, `analyze_transcript` returns no record and reports the
failure instead of raising: in the embedding the function is total with
result type `Option Json × List Str`, so no exception reaches the
caller; the record is `none` and the parse error is among the emitted
messages. -/
theorem C2_malformed_returns_none (transcript response : Str)
    (h : Json.jsonParse (Py.pystrip (Dfu.stripFences response)) = none) :
    (Dfu.analyze_transcript transcript response).1 = none
    ∧ txt "JSON parsing error: " ∈ (Dfu.analyze_transcript transcript response).2 := by
  rw [Dfu.analyze_transcript_err h]
  exact ⟨rfl, by simp⟩

set_option maxHeartbeats 1000000 in
/-- **C2 (witness).** A plain-prose stub response fails to parse and the
analyzer yields no record while reporting the parse error. -/
theorem C2_malformed_returns_none_witness :
    Json.jsonParse (Py.pystrip (Dfu.stripFences (txt "It was a good demo."))) = none
    ∧ (Dfu.analyze_transcript (txt "demo call") (txt "It was a good demo.")).1 = none
    ∧ txt "JSON parsing error: "
        ∈ (Dfu.analyze_transcript (txt "demo call") (txt "It was a good demo.")).2 :=
  ⟨rfl,
    (C2_malformed_returns_none (txt "demo call") (txt "It was a good demo.") rfl).1,
    (C2_malformed_returns_none (txt "demo call") (txt "It was a good demo.") rfl).2⟩

/-- **C5.** Whenever the response fails to parse (so the analyzer
yields no record), one Analyze press stores `none` in the insights
slot, never invokes the email drafter (invocation flag `false`, draft
slot untouched), and reports the parse error among the messages. -/
theorem C5_parse_failure_skips_drafter
    (env : Str → Option Str) (state : Dfu.SessionState)
    (contact transcript ttype response : Str) (eresp : Option Str)
    (ht : transcript.isEmpty = false)
    (henv : Dfu.initAnalyzer env = .ok ())
    (h : Json.jsonParse (Py.pystrip (Dfu.stripFences response)) = none) :
    Dfu.analyzeClick env state contact transcript ttype response eresp
      = .ok ({ state with insights := none }, false,
          [txt "JSON parsing error: ",
           txt "Raw response: " ++ (Dfu.stripFences response).take 500 ++ txt "...",
           txt "Error analyzing transcript: "]) := by
  have hres := @Dfu.analyze_transcript_err transcript response h
  have hcond : (!contact.isEmpty
      && Dfu.optionTruthy (Dfu.analyze_transcript transcript response).1) = false := by
    rw [hres]
    simp [Dfu.optionTruthy]
  rw [Dfu.analyzeClick_noDraft ht henv hcond, hres]

set_option maxHeartbeats 1000000 in
/-- **C5 (witness).** A prose response with a non-empty contact name:
no record is stored, the drafter is skipped, the prior draft survives. -/
theorem C5_parse_failure_skips_drafter_witness :
    (txt "t").isEmpty = false
    ∧ Dfu.initAnalyzer (fun _ => some (txt "k")) = .ok ()
    ∧ Json.jsonParse (Py.pystrip (Dfu.stripFences (txt "no json here"))) = none
    ∧ Dfu.analyzeClick (fun _ => some (txt "k"))
        ⟨some Json.null, some (txt "old")⟩ (txt "Ann") (txt "t") (txt "standard")
        (txt "no json here") none
      = .ok ({ (⟨some Json.null, some (txt "old")⟩ : Dfu.SessionState) with
            insights := none }, false,
          [txt "JSON parsing error: ",
           txt "Raw response: "
             ++ (Dfu.stripFences (txt "no json here")).take 500 ++ txt "...",
           txt "Error analyzing transcript: "]) :=
  ⟨rfl, rfl, rfl,
    C5_parse_failure_skips_drafter _ _ _ _ _ _ _ rfl rfl rfl⟩

/-- **C7.** When the credential is absent from the merged environment
view (process environment plus `.env` file), constructing the analyzer
raises the `ValueError`, and an Analyze press on a non-empty transcript
propagates that error before any analysis runs: no recovery. -/
theorem C7_missing_credential_fatal
    (env : Str → Option Str) (state : Dfu.SessionState)
    (contact transcript ttype response : Str) (eresp : Option Str)
    (ht : transcript.isEmpty = false)
    (henv : env (txt "ANTHROPIC_API_KEY") = none) :
    Dfu.initAnalyzer env = .error Dfu.apiKeyErrMsg
    ∧ Dfu.analyzeClick env state contact transcript ttype response eresp
        = .error Dfu.apiKeyErrMsg := by
  have h1 : Dfu.initAnalyzer env = .error Dfu.apiKeyErrMsg := by
    simp only [Dfu.initAnalyzer, henv]
  refine ⟨h1, ?_⟩
  simp only [Dfu.analyzeClick, ht, Bool.false_eq_true, if_false]
  rw [h1]

/-- **C7 (witness).** An empty environment is fatal for a click with a
non-empty transcript. -/
theorem C7_missing_credential_fatal_witness :
    (txt "t").isEmpty = false
    ∧ ((fun _ => none) : Str → Option Str) (txt "ANTHROPIC_API_KEY") = none
    ∧ Dfu.initAnalyzer (fun _ => none) = .error Dfu.apiKeyErrMsg
    ∧ Dfu.analyzeClick (fun _ => none) ⟨none, none⟩ (txt "Ann") (txt "t")
        (txt "standard") (txt "x") none = .error Dfu.apiKeyErrMsg :=
  ⟨rfl, rfl,
    (C7_missing_credential_fatal (fun _ => none) ⟨none, none⟩ (txt "Ann") (txt "t")
      (txt "standard") (txt "x") none rfl rfl).1,
    (C7_missing_credential_fatal (fun _ => none) ⟨none, none⟩ (txt "Ann") (txt "t")
      (txt "standard") (txt "x") none rfl rfl).2⟩

/-- **C9.** With an empty contact name, an Analyze press overwrites the
insights slot with the analyzer result but never invokes the drafter —
even when analysis succeeds — and leaves the email draft slot
unchanged. -/
theorem C9_empty_contact_no_draft
    (env : Str → Option Str) (state : Dfu.SessionState)
    (transcript ttype response : Str) (eresp : Option Str)
    (ht : transcript.isEmpty = false)
    (henv : Dfu.initAnalyzer env = .ok ()) :
    Dfu.analyzeClick env state [] transcript ttype response eresp
      = .ok ({ state with insights := (Dfu.analyze_transcript transcript response).1 },
          false, (Dfu.analyze_transcript transcript response).2) :=
  Dfu.analyzeClick_noDraft ht henv rfl

set_option maxHeartbeats 1000000 in
/-- **C9 (witness).** Analysis succeeds (a record is produced) and the
contact name is empty: no draft is generated, the prior draft stays. -/
theorem C9_empty_contact_no_draft_witness :
    (Dfu.analyze_transcript (txt "t") (txt "\x7b\"a\": 1\x7d")).1.isSome = true
    ∧ Dfu.analyzeClick (fun _ => some (txt "k"))
        ⟨none, some (txt "old")⟩ [] (txt "t") (txt "standard")
        (txt "\x7b\"a\": 1\x7d") (some (txt "draft"))
      = .ok ({ (⟨none, some (txt "old")⟩ : Dfu.SessionState) with
            insights := (Dfu.analyze_transcript (txt "t") (txt "\x7b\"a\": 1\x7d")).1 },
          false, (Dfu.analyze_transcript (txt "t") (txt "\x7b\"a\": 1\x7d")).2) :=
  ⟨rfl, C9_empty_contact_no_draft _ _ _ _ _ _ rfl rfl⟩

/-- **C10.** Every Analyze press on a non-empty transcript (with the
credential present) overwrites the insights slot with the analyzer's
result — so a failed analysis replaces any previously stored record
with `none` — and whenever no new draft is generated the email draft
slot keeps its prior value. -/
theorem C10_insights_overwritten
    (env : Str → Option Str) (state : Dfu.SessionState)
    (contact transcript ttype response : Str) (eresp : Option Str)
    (ht : transcript.isEmpty = false)
    (henv : Dfu.initAnalyzer env = .ok ()) :
    ∃ st' inv msgs,
      Dfu.analyzeClick env state contact transcript ttype response eresp
        = .ok (st', inv, msgs)
      ∧ st'.insights = (Dfu.analyze_transcript transcript response).1
      ∧ (inv = false → st'.email_draft = state.email_draft) := by
  cases hcond : (!contact.isEmpty
      && Dfu.optionTruthy (Dfu.analyze_transcript transcript response).1) with
  | false =>
    exact ⟨_, _, _, Dfu.analyzeClick_noDraft ht henv hcond, rfl, fun _ => rfl⟩
  | true =>
    exact ⟨_, _, _, Dfu.analyzeClick_draft ht henv hcond, rfl,
      fun hf => Bool.noConfusion hf⟩

set_option maxHeartbeats 1000000 in
/-- **C10 (witness).** A failing analysis over a previously stored
record: the slot is overwritten with `none`, the draft survives. -/
theorem C10_insights_overwritten_witness :
    (txt "t").isEmpty = false
    ∧ Dfu.initAnalyzer (fun _ => some (txt "k")) = .ok ()
    ∧ ∃ st' inv msgs,
        Dfu.analyzeClick (fun _ => some (txt "k"))
          ⟨some Json.null, some (txt "old")⟩ (txt "Ann") (txt "t") (txt "standard")
          (txt "bad output") none
          = .ok (st', inv, msgs)
        ∧ st'.insights
            = (Dfu.analyze_transcript (txt "t") (txt "bad output")).1
        ∧ (inv = false →
            st'.email_draft
              = (⟨some Json.null, some (txt "old")⟩ : Dfu.SessionState).email_draft) :=
  ⟨rfl, rfl, C10_insights_overwritten _ _ _ _ _ _ _ rfl rfl⟩

/-- **C6.** `generate_email_template` selects the instructional
fragment by template category: each of the four known categories
selects its own fragment, and every category outside the enumeration
falls back to the "standard" fragment (the selection is total, so the
drafter proceeds without failing). -/
theorem C6_unknown_template_falls_back :
    (∀ t : Str,
        t ∉ [txt "technical", txt "executive", txt "clinical", txt "standard"] →
        Dfu.selectedPrompt t = txt "Balanced overview of all aspects")
    ∧ Dfu.selectedPrompt (txt "technical")
        = txt "Focus on technical details and integration pathway"
    ∧ Dfu.selectedPrompt (txt "executive")
        = txt "Emphasize ROI and strategic value"
    ∧ Dfu.selectedPrompt (txt "clinical")
        = txt "Focus on clinical workflow improvements and patient care"
    ∧ Dfu.selectedPrompt (txt "standard")
        = txt "Balanced overview of all aspects" := by
  refine ⟨?_, rfl, rfl, rfl, rfl⟩
  intro t hmem
  simp only [List.mem_cons, List.not_mem_nil, or_false, not_or] at hmem
  obtain ⟨h1, h2, h3, h4⟩ := hmem
  have e1 : (t == txt "technical") = false := beq_eq_false_iff_ne.mpr h1
  have e2 : (t == txt "executive") = false := beq_eq_false_iff_ne.mpr h2
  have e3 : (t == txt "clinical") = false := beq_eq_false_iff_ne.mpr h3
  have e4 : (t == txt "standard") = false := beq_eq_false_iff_ne.mpr h4
  simp only [Dfu.selectedPrompt, Dfu.template_prompts, List.lookup, e1, e2, e3, e4]
  rfl

/-- **C6 (witness).** An out-of-enumeration category selects the
"standard" fragment. -/
theorem C6_unknown_template_falls_back_witness :
    Dfu.selectedPrompt (txt "promotional") = txt "Balanced overview of all aspects" :=
  C6_unknown_template_falls_back.1 _ (by decide)

namespace Json

/-- Object members serialize entrywise, in entry order. -/
theorem dumpMembers_eq_map (ind : Nat) (kvs : List (Str × Json)) :
    dumpMembers ind kvs
      = kvs.map (fun kv =>
          indentPad ind ++ jsonQuote kv.1 ++ ':' :: ' ' :: dumpVal ind kv.2) := by
  induction kvs with
  | nil => simp [dumpMembers]
  | cons kv rest ih =>
    cases kv with
    | mk k v => simp [dumpMembers, ih]

end Json

/-- **C8.** The export serialization is deterministic — equal records
serialize to identical indented JSON text — and an object record's keys
appear in the output in the record's own entry order (the serialization
of a non-empty object is the `",\n"`-join of its entries rendered in
order). -/
theorem C8_export_deterministic :
    (∀ r₁ r₂ : Json, r₁ = r₂ →
      Json.json_dumps_indent2 r₁ = Json.json_dumps_indent2 r₂)
    ∧ ∀ (kv : Str × Json) (kvs : List (Str × Json)),
        Json.json_dumps_indent2 (Json.obj (kv :: kvs))
          = '\x7b' :: '\n' :: List.intercalate (txt ",\n")
              ((kv :: kvs).map (fun p =>
                Json.indentPad 2 ++ Json.jsonQuote p.1
                  ++ ':' :: ' ' :: Json.dumpVal 2 p.2))
            ++ '\n' :: ['\x7d'] := by
  refine ⟨fun r₁ r₂ h => by rw [h], fun kv kvs => ?_⟩
  show Json.dumpVal 0 (Json.obj (kv :: kvs)) = _
  simp [Json.dumpVal, Json.dumpMembers_eq_map, Json.indentPad]

/-- **C8 (witness).** The theorem applied to a fixed one-field record. -/
theorem C8_export_deterministic_witness :
    Json.json_dumps_indent2 (Json.obj [(txt "a", Json.null)])
      = Json.json_dumps_indent2 (Json.obj [(txt "a", Json.null)])
    ∧ Json.json_dumps_indent2 (Json.obj [(txt "a", Json.null)])
        = '\x7b' :: '\n' :: List.intercalate (txt ",\n")
            ([((txt "a" : Str), Json.null)].map (fun p =>
              Json.indentPad 2 ++ Json.jsonQuote p.1
                ++ ':' :: ' ' :: Json.dumpVal 2 p.2))
          ++ '\n' :: ['\x7d'] :=
  ⟨C8_export_deterministic.1 _ _ rfl,
    C8_export_deterministic.2 (txt "a", Json.null) []⟩

set_option maxHeartbeats 4000000 in
/-- **C3 (code bug).** The spec requires downstream rendering to
tolerate missing optional keys, but the source renders with direct
dict indexing: a truthy record lacking `pain_points` — here
`{"technical_requirements": []}` — aborts the whole render with
`KeyError: 'pain_points'` at its very first lookup. (The spec's design
notes themselves flag the source's behaviour here as not to be
copied.) -/
theorem C3_render_missing_key_raises :
    Dfu.jsonTruthy (Json.obj [(txt "technical_requirements", Json.arr [])]) = true
    ∧ Dfu.renderInsights (Json.obj [(txt "technical_requirements", Json.arr [])])
        = .error (txt "KeyError: pain_points") :=
  ⟨rfl, rfl⟩

set_option maxHeartbeats 4000000 in
/-- **C4 (code bug).** `analyze_transcript` computes
`cleaned_transcript` (strip, newlines to spaces, carriage returns
removed) and then never uses it: the prompt f-string interpolates the
raw `transcript`. For a transcript with a newline, the prompt contains
the raw text as a substring and does not contain the cleaned form the
spec describes. -/
theorem C4_prompt_embeds_raw_transcript :
    Dfu.cleaned_transcript (txt "QQline1\nline2QQ") = txt "QQline1 line2QQ"
    ∧ Py.pyContains (txt "QQline1\nline2QQ")
        (Dfu.analysis_prompt (txt "QQline1\nline2QQ")) = true
    ∧ Py.pyContains (txt "QQline1 line2QQ")
        (Dfu.analysis_prompt (txt "QQline1\nline2QQ")) = false := by
  refine ⟨by decide, ?_, by decide⟩
  exact Py.pyContains_mid Dfu.analysisPromptPre Dfu.analysisPromptPost (by decide)
